import Mathlib

/-!
Verification of the generic list-query engine of the flexprice admin console
(filter/sort criteria model, sanitization, debounced commit, pagination reset
coordination, and the two-query empty-state probe protocol), against its
natural-language specification.

The only page in the sources that wires the full engine is
`src/pages/customer/payments/WalletTransactionList.tsx`; the hook
implementations (`useFilterSorting`, `usePagination`, `useQueryWithEmptyState`)
and the `QueryBuilder` type module live outside the provided sources, so those
parts are modelled from the specification, as marked on each definition.
-/

namespace ListQuery

/-! ## Data model (spec section 3; `types/common/QueryBuilder` is not in the
provided sources, so the enumerations follow the spec's data model). -/

/-- Modelled from the spec: `DataType` enumeration of
`types/common/QueryBuilder` (not in the provided sources). -/
inductive DataType
  | STRING
  | NUMBER
  | DATE
  | BOOLEAN
  | ARRAY
deriving DecidableEq, Repr

/-- Modelled from the spec: `FilterOperator` enumeration of
`types/common/QueryBuilder` (not in the provided sources). -/
inductive FilterOperator
  | EQUALS
  | NOT_EQUALS
  | CONTAINS
  | IS_ANY_OF
  | IS_NOT_ANY_OF
  | BEFORE
  | AFTER
deriving DecidableEq, Repr

/-- Modelled from the spec: `FilterFieldType` (input-widget kind) of
`types/common/QueryBuilder` (not in the provided sources). -/
inductive FilterFieldType
  | TEXT
  | SELECT
  | MULTI_SELECT
  | DATEPICKER
  | NUMBER_INPUT
deriving DecidableEq, Repr

/-- Modelled from the spec: the operator registry
`DEFAULT_OPERATORS_PER_DATA_TYPE` mapping each `DataType` to its ordered legal
operator sequence (configuration-time data, immutable; the concrete sequences
are representative, the claims do not depend on their exact contents). -/
def DEFAULT_OPERATORS_PER_DATA_TYPE : DataType → List FilterOperator
  | .STRING => [.EQUALS, .NOT_EQUALS, .CONTAINS]
  | .NUMBER => [.EQUALS, .NOT_EQUALS]
  | .DATE => [.BEFORE, .AFTER]
  | .BOOLEAN => [.EQUALS]
  | .ARRAY => [.IS_ANY_OF, .IS_NOT_ANY_OF]

/-- A `{value, label}` option for choice-based filter widgets. -/
structure SelectOption where
  value : String
  label : String
deriving DecidableEq, Repr

/-- A filter-field definition (spec section 3). -/
structure FilterField where
  field : String
  label : String
  fieldType : FilterFieldType
  operators : List FilterOperator
  dataType : DataType
  options : Option (List SelectOption) := none
deriving DecidableEq, Repr

/-- A filter criterion's value: scalar string or number, an array of selected
values, or absent (`undefined`/`null` in the source language). -/
inductive FilterValue
  | undef
  | str (s : String)
  | num (n : Int)
  | arr (xs : List String)
deriving DecidableEq, Repr

/-- A live filter criterion instance (spec section 3). -/
structure FilterCriterion where
  field : String
  operator : FilterOperator
  value : FilterValue
deriving DecidableEq, Repr

inductive SortDirection
  | ASC
  | DESC
deriving DecidableEq, Repr

/-- A sort criterion; `field` or `direction` may be missing on a
partially-entered entry, which sanitization drops. -/
structure SortCriterion where
  field : Option String
  label : String
  direction : Option SortDirection
deriving DecidableEq, Repr

/-! ## Sanitizer (spec section 4.2; the sanitizer implementation backing
`useFilterSorting` is not in the provided sources). -/

/-- A value counts as empty when it is `undefined`/`null`, the empty string,
or an array with zero elements. -/
def FilterValue.isEmptyValue : FilterValue → Bool
  | .undef => true
  | .str s => s == ""
  | .num _ => false
  | .arr xs => xs.isEmpty

/-- The filter-field definition matching a criterion: the first field with the
same `field` key. -/
def matchingField (fields : List FilterField) (c : FilterCriterion) : Option FilterField :=
  fields.find? (fun fd => fd.field == c.field)

/-- Modelled from the spec: a criterion survives sanitization when its value is
non-empty and its operator belongs to the matching field definition's operator
set (a criterion with no matching field definition cannot be validated and is
dropped). -/
def validCriterion (fields : List FilterField) (c : FilterCriterion) : Bool :=
  !c.value.isEmptyValue &&
    (match matchingField fields c with
     | some fd => fd.operators.contains c.operator
     | none => false)

/-- Modelled from the spec: `sanitizeFilters` drops any criterion whose value
is empty/undefined/null, whose array-typed value has zero elements, or whose
operator is not in the matching `FilterField`'s operator set. Pure and
order-preserving. -/
def sanitizeFilters (criteria : List FilterCriterion) (fields : List FilterField) :
    List FilterCriterion :=
  criteria.filter (fun c => validCriterion fields c)

/-- A sort entry survives sanitization when both `field` and `direction` are
present. -/
def validSort (s : SortCriterion) : Bool :=
  s.field.isSome && s.direction.isSome

/-- Modelled from the spec: `sanitizeSorts` drops entries missing `field` or
`direction`. Pure and order-preserving. -/
def sanitizeSorts (sorts : List SortCriterion) : List SortCriterion :=
  sorts.filter validSort

/-! ## Query results and the empty-state resolver (spec section 4.5; the hook
`useQueryWithEmptyState` is not in the provided sources, so its resolution
behaviour is modelled from the spec's resolution table). -/

/-- A fetch result: `items` plus `pagination.total`. -/
structure QueryResult (α : Type) where
  items : List α
  total : Nat
deriving DecidableEq, Repr

/-- The outcome of a settled asynchronous fetch: resolved with a result, or
rejected. -/
inductive FetchOutcome (α : Type)
  | ok (r : QueryResult α)
  | err
deriving DecidableEq, Repr

/-- Resolver states (spec section 4.5). -/
inductive ResolvedState
  | Loading
  | Error
  | TrueEmpty
  | FilteredEmpty
  | Populated
deriving DecidableEq, Repr

/-- What one query cycle produced once everything required has settled: how
many times the probe fetch was invoked, the resolved state, and the probe data
exposed to the caller. -/
structure CycleResult (α : Type) where
  probeCalls : Nat
  state : ResolvedState
  probeData : Option (QueryResult α)
deriving DecidableEq, Repr

/-- Modelled from the spec: the default `shouldProbe` predicate
`mainResult.items.length === 0` (the argument is `none` while the main query
has no data, in which case the optional-chained comparison is false). -/
def defaultShouldProbe (mainData : Option (QueryResult α)) : Bool :=
  match mainData with
  | some r => r.items.length == 0
  | none => false

/-- The `shouldProbe` predicate passed by `WalletTransactionList`
(`(mainData) => mainData?.items.length === 0`, WalletTransactionList.tsx
lines 130-132). -/
def walletShouldProbe (mainData : Option (QueryResult α)) : Bool :=
  match mainData with
  | some r => r.items.length == 0
  | none => false

/-- Modelled from the spec: one query cycle of the Empty-State Resolver
(spec section 4.5). The probe fetch is invoked exactly when
`shouldProbe(mainResult)` holds; the resolution table is: main failed ⇒
`Error` (probe not issued, its outcome ignored); main non-empty without probe
⇒ `Populated`; main empty with probe failed ⇒ `Error`; main empty with probe
empty ⇒ `TrueEmpty`; main empty with probe non-empty ⇒ `FilteredEmpty`. The
spec's table leaves "main empty, probe not issued" unspecified (unreachable
under the default predicate); the model keeps that cycle at `Loading`. -/
def runQueryCycle (sp : Option (QueryResult α) → Bool)
    (mainOutcome : FetchOutcome α) (probeOutcome : FetchOutcome α) : CycleResult α :=
  match mainOutcome with
  | .err => { probeCalls := 0, state := .Error, probeData := none }
  | .ok r =>
    if sp (some r) then
      match probeOutcome with
      | .err => { probeCalls := 1, state := .Error, probeData := none }
      | .ok q =>
        { probeCalls := 1
          state :=
            if r.items.isEmpty then
              (if q.items.isEmpty then .TrueEmpty else .FilteredEmpty)
            else .Populated
          probeData := some q }
    else
      { probeCalls := 0
        state := if r.items.isEmpty then .Loading else .Populated
        probeData := none }

/-- The `showEmptyPage` memo of `WalletTransactionList`
(`!isLoading && probeData?.items.length === 0 && transactionsData?.items.length === 0`,
WalletTransactionList.tsx lines 135-137); an optional-chained comparison on an
absent operand is false. -/
def showEmptyPage (isLoading : Bool) (probeData transactionsData : Option (QueryResult α)) :
    Bool :=
  !isLoading &&
    (match probeData with
     | some p => p.items.length == 0
     | none => false) &&
    (match transactionsData with
     | some m => m.items.length == 0
     | none => false)

/-! ## Pagination controller (spec sections 3 and 4.4; the hook
`usePagination` is not in the provided sources). -/

/-- Modelled from the spec: the pagination controller's state `{page
(1-indexed), limit}` maintained by `usePagination`. -/
structure PaginationState where
  page : Nat
  limit : Nat
deriving DecidableEq, Repr

/-- Modelled from the spec: the `offset` value `usePagination` exposes,
`(page-1)×limit`. -/
def offsetOf (s : PaginationState) : Nat :=
  (s.page - 1) * s.limit

/-- Modelled from the spec: the operations `usePagination` exposes on its
state. -/
inductive PagOp
  | setPage (n : Nat)
  | setLimit (n : Nat)
  | resetOp
deriving DecidableEq, Repr

/-- Modelled from the spec: `reset()` sets page to 1 and leaves the limit
unchanged; `setPage`/`setLimit` update their own field only. -/
def applyPagOp (s : PaginationState) : PagOp → PaginationState
  | .setPage n => { page := n, limit := s.limit }
  | .setLimit n => { page := s.page, limit := n }
  | .resetOp => { page := 1, limit := s.limit }

/-- Modelled from the spec: the pagination `reset()` operation on its own. -/
def resetPagination (s : PaginationState) : PaginationState :=
  applyPagOp s .resetOp

/-- Modelled from the spec: the initial pagination state, page 1 with a
caller-chosen page size. -/
def initPagination (limit : Nat) : PaginationState :=
  { page := 1, limit := limit }

/-- A `setPage` request is only ever made with a 1-indexed page number. -/
def validPagOp : PagOp → Prop
  | .setPage n => 1 ≤ n
  | .setLimit _ => True
  | .resetOp => True

instance : DecidablePred validPagOp := by
  intro op
  cases op <;> simp [validPagOp] <;> infer_instance

/-! ## Debounced state controller (spec section 4.3; the hook
`useFilterSorting` is not in the provided sources, so the debounce protocol is
modelled from the spec: live state updates synchronously, any pending commit
timer is cancelled, a fresh timer is started, and on timer fire the committed
state is recomputed from the live state via the sanitizer and published).
Time is the single cooperative thread's clock in milliseconds; `commitLog`
records every published committed-state update, in order. -/

/-- One criteria slot of the debounced state controller. -/
structure DebounceState (α : Type) where
  live : α
  committed : α
  timerFire : Option Nat
  commitLog : List α
deriving DecidableEq, Repr

/-- Modelled from the spec: the pending timer fires — the committed state is
recomputed from the live state via the sanitizer `san` and published. -/
def fireTimer (san : α → α) (s : DebounceState α) : DebounceState α :=
  { live := s.live
    committed := san s.live
    timerFire := none
    commitLog := s.commitLog ++ [san s.live] }

/-- Modelled from the spec: a `setFilters`/`setSorts` call at time `t` with
value `v`. Any timer whose fire time has already passed fires first (the
single-threaded scheduler runs due callbacks before later calls); then the
live state is updated synchronously, the pending timer (if any) is cancelled,
and a new timer is started `db` milliseconds out. -/
def applyEdit (san : α → α) (db : Nat) (s : DebounceState α) (t : Nat) (v : α) :
    DebounceState α :=
  let s1 :=
    match s.timerFire with
    | some ft => if ft ≤ t then fireTimer san s else s
    | none => s
  { live := v
    committed := s1.committed
    timerFire := some (t + db)
    commitLog := s1.commitLog }

/-- Let any still-pending timer fire (time passes beyond every fire time). -/
def flushTimer (san : α → α) (s : DebounceState α) : DebounceState α :=
  match s.timerFire with
  | some _ => fireTimer san s
  | none => s

/-- Run a sequence of timestamped `setFilters` calls, then let the last timer
fire. -/
def runEdits (san : α → α) (db : Nat) (s : DebounceState α)
    (calls : List (Nat × α)) : DebounceState α :=
  flushTimer san (calls.foldl (fun s tv => applyEdit san db s tv.1 tv.2) s)

/-! ## List query orchestrator (spec section 4.6) as an explicit reducer over
named events, per the spec's design notes: a criteria edit recomputes the
committed (sanitized) criteria, and when their value changed it resets
pagination and re-issues the main fetch; a page or limit change re-issues the
main fetch at the new offset with the unchanged committed criteria. -/

/-- The argument record of the caller-supplied `fetchPage` contract
(spec section 6). -/
structure FetchParams where
  limit : Nat
  offset : Nat
  filters : List FilterCriterion
  sort : List SortCriterion
deriving DecidableEq, Repr

/-- Orchestrator-visible state: committed criteria plus pagination. -/
structure OrchState where
  committedFilters : List FilterCriterion
  committedSorts : List SortCriterion
  pag : PaginationState
deriving DecidableEq, Repr

/-- Events consumed by the orchestrator reducer. -/
inductive OrchEvent
  | criteriaEdit (f : List FilterCriterion) (so : List SortCriterion)
  | pageChange (n : Nat)
  | limitChange (n : Nat)
deriving DecidableEq, Repr

/-- Observable side effects the orchestrator emits, in order. -/
inductive OrchAction
  | resetAction
  | fetchAction (p : FetchParams)
deriving DecidableEq, Repr

/-- A page-change request is only ever made with a 1-indexed page number. -/
def validEvent : OrchEvent → Prop
  | .pageChange n => 1 ≤ n
  | .limitChange _ => True
  | .criteriaEdit _ _ => True

instance : DecidablePred validEvent := by
  intro e
  cases e <;> simp [validEvent] <;> infer_instance

/-- The main-fetch parameters for a given orchestrator state: current
`{limit, offset}` plus the committed filters and sorts (the shape of
`fetchWalletTransactions`, WalletTransactionList.tsx lines 95-103). -/
def mainFetchParams (s : OrchState) : FetchParams :=
  { limit := s.pag.limit
    offset := offsetOf s.pag
    filters := s.committedFilters
    sort := s.committedSorts }

/-- Modelled from the spec: one orchestrator step. On a criteria edit the
committed criteria are recomputed through the sanitizer; when their value
changed (structural equality), pagination is reset and then the main fetch is
issued with the new criteria at the new offset; when the value is unchanged,
nothing is re-issued. On a page or limit change the main fetch is re-issued
with the committed criteria at the new offset. -/
def stepOrch (fields : List FilterField) (s : OrchState) :
    OrchEvent → OrchState × List OrchAction
  | .criteriaEdit f so =>
    let f1 := sanitizeFilters f fields
    let so1 := sanitizeSorts so
    if f1 = s.committedFilters ∧ so1 = s.committedSorts then (s, [])
    else
      let pag1 := resetPagination s.pag
      let s1 : OrchState := { committedFilters := f1, committedSorts := so1, pag := pag1 }
      (s1, [.resetAction, .fetchAction (mainFetchParams s1)])
  | .pageChange n =>
    let s1 : OrchState := { s with pag := applyPagOp s.pag (.setPage n) }
    (s1, [.fetchAction (mainFetchParams s1)])
  | .limitChange n =>
    let s1 : OrchState := { s with pag := applyPagOp s.pag (.setLimit n) }
    (s1, [.fetchAction (mainFetchParams s1)])

/-- The action trace of a whole event sequence. -/
def orchTrace (fields : List FilterField) (s : OrchState) :
    List OrchEvent → List OrchAction
  | [] => []
  | e :: es => (stepOrch fields s e).2 ++ orchTrace fields (stepOrch fields s e).1 es

/-- The fetch-parameter subsequence of an action trace, in issue order. -/
def fetchesOf (tr : List OrchAction) : List FetchParams :=
  tr.filterMap (fun a =>
    match a with
    | .fetchAction p => some p
    | .resetAction => none)

/-- Counts the `resetAction` occurrences of a trace. -/
def resetCount (tr : List OrchAction) : Nat :=
  (tr.filter (fun a =>
    match a with
    | .resetAction => true
    | .fetchAction _ => false)).length

/-! ## WalletTransactionList view (embedded from
`src/pages/customer/payments/WalletTransactionList.tsx`). -/

/-- A user record as consumed by the Created By filter; `email` and `name`
may be absent, and the source's `||` fallback also skips empty strings. -/
structure User where
  id : String
  email : Option String
  name : Option String
deriving DecidableEq, Repr

/-- JavaScript `a || b` on an optional string: an absent or empty string falls
through to the alternative. -/
def orFallback (a : Option String) (b : String) : String :=
  match a with
  | some s => if s == "" then b else s
  | none => b

/-- `userOptions` (WalletTransactionList.tsx lines 42-49):
`users?.map(u => ({value: u.id, label: u.email || u.name || u.id})) || []`. -/
def userOptions (users : Option (List User)) : List SelectOption :=
  match users with
  | some us => us.map (fun u => { value := u.id, label := orFallback u.email (orFallback u.name u.id) })
  | none => []

/-- The Created At filter field of `WalletTransactionList`
(lines 55-61 and 73-79 of the source). -/
def createdAtField : FilterField :=
  { field := "created_at"
    label := "Created At"
    fieldType := .DATEPICKER
    operators := DEFAULT_OPERATORS_PER_DATA_TYPE .DATE
    dataType := .DATE }

/-- The Created By filter field of `WalletTransactionList`
(lines 65-72 of the source), parameterized by the fetched user options. -/
def createdByField (opts : List SelectOption) : FilterField :=
  { field := "created_by"
    label := "Created By"
    fieldType := .MULTI_SELECT
    operators := [.IS_ANY_OF, .IS_NOT_ANY_OF]
    dataType := .ARRAY
    options := some opts }

/-- `filterOptions` (WalletTransactionList.tsx lines 51-81): only the
Created At filter while the users fetch has errored, not yet produced data, or
produced an empty list; otherwise Created By plus Created At. Recomputed
whenever `userOptions`, `isUsersError` or `users` changes. -/
def filterOptions (isUsersError : Bool) (users : Option (List User)) : List FilterField :=
  if isUsersError || users.isNone || (users.getD []).length == 0 then
    [createdAtField]
  else
    [createdByField (userOptions users), createdAtField]

/-- Everything about the view's transient state that could conceivably vary
between renders of `WalletTransactionList`: pagination, live criteria, and
committed (sanitized) criteria. -/
structure WalletViewState where
  page : Nat
  limit : Nat
  offset : Nat
  filters : List FilterCriterion
  sorts : List SortCriterion
  sanitizedFilters : List FilterCriterion
  sanitizedSorts : List SortCriterion
deriving DecidableEq, Repr

/-- The probe `queryFn` arguments of `WalletTransactionList`
(lines 121-128 of the source): the literal record
`{limit: 1, offset: 0, filters: [], sort: []}`, built from constants and
capturing nothing from the view state. -/
def probeQueryFnParams (_s : WalletViewState) : FetchParams :=
  { limit := 1, offset := 0, filters := [], sort := [] }

/-- The main `queryFn` arguments of `WalletTransactionList`
(lines 95-103 of the source): current `{limit, offset}` with the committed
criteria. -/
def walletMainParams (s : WalletViewState) : FetchParams :=
  { limit := s.limit
    offset := s.offset
    filters := s.sanitizedFilters
    sort := s.sanitizedSorts }

/-! ## Theorems -/

/-- Claim C1: for every query cycle in which the main query settles with zero
items and the probe query settles, the resolved state is `TrueEmpty` when the
probe's items are empty and `FilteredEmpty` when they are non-empty; and in
`WalletTransactionList` the true-empty page is shown exactly when loading has
finished and both the main items and the probe items are empty. -/
theorem wallet_empty_state_resolution :
    (∀ (α : Type) (t : Nat) (q : QueryResult α),
      (runQueryCycle walletShouldProbe (.ok { items := [], total := t }) (.ok q)).state
        = (if q.items.isEmpty then .TrueEmpty else .FilteredEmpty))
    ∧ (∀ (α : Type) (l : Bool) (pd td : Option (QueryResult α)),
      showEmptyPage l pd td = true ↔
        l = false ∧ (∃ p, pd = some p ∧ p.items = []) ∧ (∃ m, td = some m ∧ m.items = [])) := by
  constructor
  · intro α t q
    simp [runQueryCycle, walletShouldProbe]
  · intro α l pd td
    cases l <;> cases pd <;> cases td <;>
      simp [showEmptyPage, List.length_eq_zero]

/-- Claim C2: the probe query is issued only if `shouldProbe(mainResult)`
returns true; the predicate `WalletTransactionList` passes coincides with the
default `items.length === 0`; and for every main result with at least one
item the probe fetch is called zero times and the resolved state is
`Populated`. -/
theorem probe_gating_and_populated :
    (∀ (α : Type) (sp : Option (QueryResult α) → Bool) (m p : FetchOutcome α),
      (runQueryCycle sp m p).probeCalls ≠ 0 →
        ∃ r, m = .ok r ∧ sp (some r) = true)
    ∧ (∀ (α : Type) (o : Option (QueryResult α)), walletShouldProbe o = defaultShouldProbe o)
    ∧ (∀ (α : Type) (r : QueryResult α) (p : FetchOutcome α), r.items ≠ [] →
        (runQueryCycle walletShouldProbe (.ok r) p).probeCalls = 0 ∧
        (runQueryCycle walletShouldProbe (.ok r) p).state = .Populated) := by
  refine ⟨?_, ?_, ?_⟩
  · intro α sp m p h
    cases m with
    | err => simp [runQueryCycle] at h
    | ok r =>
      by_cases hsp : sp (some r)
      · exact ⟨r, rfl, hsp⟩
      · simp [runQueryCycle, hsp] at h
  · intro α o
    cases o <;> rfl
  · intro α r p h
    cases hi : r.items with
    | nil => exact absurd hi h
    | cons a as =>
      cases p <;> simp [runQueryCycle, walletShouldProbe, hi]

/-- Witness for claim C2's theorem at a concrete populated main result. -/
theorem probe_gating_and_populated_witness :
    (["a"] : List String) ≠ [] ∧
    (runQueryCycle walletShouldProbe (.ok { items := ["a"], total := 1 })
        (.ok { items := [], total := 0 })).probeCalls = 0 ∧
    (runQueryCycle walletShouldProbe (.ok { items := ["a"], total := 1 })
        (.ok { items := [], total := 0 })).state = .Populated := by
  refine ⟨by decide, ?_⟩
  exact probe_gating_and_populated.2.2 String { items := ["a"], total := 1 }
    (.ok { items := [], total := 0 }) (by decide)

/-- Claim C3: if the main fetch resolves with empty items and the probe fetch
rejects, the resolved state is `Error` — never `TrueEmpty` and never
`FilteredEmpty`. -/
theorem empty_main_probe_error :
    ∀ (α : Type) (r : QueryResult α), r.items = [] →
      (runQueryCycle walletShouldProbe (.ok r) .err).state = .Error ∧
      (runQueryCycle walletShouldProbe (.ok r) .err).state ≠ .TrueEmpty ∧
      (runQueryCycle walletShouldProbe (.ok r) .err).state ≠ .FilteredEmpty := by
  intro α r h
  simp [runQueryCycle, walletShouldProbe, h]

/-- Witness for claim C3's theorem at a concrete empty main result. -/
theorem empty_main_probe_error_witness :
    ({ items := [], total := 0 } : QueryResult String).items = [] ∧
    (runQueryCycle walletShouldProbe
        (.ok ({ items := [], total := 0 } : QueryResult String)) .err).state = .Error := by
  refine ⟨rfl, ?_⟩
  exact (empty_main_probe_error String { items := [], total := 0 } rfl).1

/-- Claim C8: pagination `reset()` sets the page to 1 and leaves the limit
unchanged; the full-record equality certifies that no other pagination field
is modified, and the exposed offset of the reset state is 0. -/
theorem reset_page_one_limit_preserved :
    ∀ s : PaginationState,
      resetPagination s = { page := 1, limit := s.limit } ∧
      offsetOf (resetPagination s) = 0 := by
  intro s
  exact ⟨rfl, by simp [offsetOf, resetPagination, applyPagOp]⟩

/-- Claim C10: the probe fetch of `WalletTransactionList` is invoked with the
fixed arguments `{limit: 1, offset: 0, filters: [], sort: []}` regardless of
the view state: for any two states the probe arguments are identical. -/
theorem probe_params_constant :
    ∀ s1 s2 : WalletViewState,
      probeQueryFnParams s1 = probeQueryFnParams s2 ∧
      probeQueryFnParams s1 = { limit := 1, offset := 0, filters := [], sort := [] } := by
  intro s1 s2
  exact ⟨rfl, rfl⟩

/-- Claim C9 counterexample: the filter-field definitions of
`WalletTransactionList` are not immutable for the view's lifetime — at view
creation the users query has produced no data and `filterOptions` is the
single Created At field, and once the users fetch settles with a non-empty
list `filterOptions` changes to Created By plus Created At. -/
theorem filterOptions_change_on_users_load :
    filterOptions false none ≠
      filterOptions false (some [{ id := "u1", email := none, name := none }]) := by
  decide

/-- Claim C9 (amended): the filter-field definitions used by
`WalletTransactionList` are a pure function of the users-query outcome rather
than fixed at view creation: they are exactly the single `created_at` field
while users are unavailable (loading, failed, or an empty list) and exactly
`created_by` followed by `created_at` once users are available non-empty. -/
theorem filterOptions_users_outcome_characterization :
    ∀ (e : Bool) (users : Option (List User)),
      ((filterOptions e users).map FilterField.field = ["created_at"] ∨
       (filterOptions e users).map FilterField.field = ["created_by", "created_at"]) ∧
      ((filterOptions e users).map FilterField.field = ["created_at"] ↔
        (e = true ∨ users = none ∨ users.getD [] = [])) := by
  intro e users
  cases e <;> rcases users with _ | ⟨_ | ⟨u, us⟩⟩ <;>
    simp [filterOptions, createdAtField, createdByField]

/-- A criterion passes validation iff its value is non-empty in every shape
and its operator belongs to the matching field definition's operator set. -/
theorem validCriterion_true_iff (fields : List FilterField) (c : FilterCriterion) :
    validCriterion fields c = true ↔
      c.value ≠ .undef ∧ c.value ≠ .str "" ∧
      (∀ xs, c.value = .arr xs → xs ≠ []) ∧
      ∃ fd, matchingField fields c = some fd ∧ c.operator ∈ fd.operators := by
  unfold validCriterion
  cases hv : c.value <;> cases hm : matchingField fields c <;>
    simp [FilterValue.isEmptyValue, hv, hm, List.contains, List.isEmpty_iff]

/-- Claim C6: `sanitizeFilters` and `sanitizeSorts` are idempotent and
order-preserving (the sanitized list is a sublist of the input, so surviving
entries keep their relative order), and `sanitizeFilters` drops exactly the
criteria whose value is empty/undefined/null, whose array-typed value has
zero elements, or whose operator is not in the matching `FilterField`'s
operator set. -/
theorem sanitize_idempotent_order_preserving :
    (∀ (l : List FilterCriterion) (fields : List FilterField),
      sanitizeFilters (sanitizeFilters l fields) fields = sanitizeFilters l fields)
    ∧ (∀ l : List SortCriterion, sanitizeSorts (sanitizeSorts l) = sanitizeSorts l)
    ∧ (∀ (l : List FilterCriterion) (fields : List FilterField),
      (sanitizeFilters l fields).Sublist l)
    ∧ (∀ l : List SortCriterion, (sanitizeSorts l).Sublist l)
    ∧ (∀ (l : List FilterCriterion) (fields : List FilterField) (c : FilterCriterion),
        c ∈ sanitizeFilters l fields ↔
          c ∈ l ∧ c.value ≠ .undef ∧ c.value ≠ .str "" ∧
          (∀ xs, c.value = .arr xs → xs ≠ []) ∧
          ∃ fd, matchingField fields c = some fd ∧ c.operator ∈ fd.operators) := by
  refine ⟨?_, ?_, ?_, ?_, ?_⟩
  · intro l fields
    simp [sanitizeFilters, List.filter_filter]
  · intro l
    simp [sanitizeSorts, List.filter_filter]
  · intro l fields
    exact List.filter_sublist l
  · intro l
    exact List.filter_sublist l
  · intro l fields c
    rw [sanitizeFilters, List.mem_filter, validCriterion_true_iff]

/-- An edit on an idle slot (no pending timer) publishes nothing: committed
state and commit log are untouched. -/
theorem applyEdit_from_idle (san : α → α) (db : Nat) (s : DebounceState α) (t : Nat) (v : α)
    (h : s.timerFire = none) :
    (applyEdit san db s t v).committed = s.committed ∧
    (applyEdit san db s t v).commitLog = s.commitLog := by
  simp [applyEdit, h]

/-- An edit arriving strictly before the pending timer's fire time publishes
nothing: committed state and commit log are untouched. -/
theorem applyEdit_no_fire (san : α → α) (db : Nat) (s : DebounceState α) (t ft : Nat) (v : α)
    (hft : s.timerFire = some ft) (hlt : t < ft) :
    (applyEdit san db s t v).committed = s.committed ∧
    (applyEdit san db s t v).commitLog = s.commitLog := by
  simp [applyEdit, hft, Nat.not_le.mpr hlt]

/-- Folding a burst of edits whose consecutive gaps stay inside the debounce
window: the live state tracks the last call, the timer is the last call's,
and nothing is published beyond what the first edit already settled. -/
theorem debounce_fold (san : α → α) (db : Nat) :
    ∀ (rest : List (Nat × α)) (s : DebounceState α) (t : Nat) (v : α),
      List.Chain' (fun a b => b.1 < a.1 + db) ((t, v) :: rest) →
      rest.foldl (fun s tv => applyEdit san db s tv.1 tv.2) (applyEdit san db s t v) =
        { live := (rest.getLastD (t, v)).2
          committed := (applyEdit san db s t v).committed
          timerFire := some ((rest.getLastD (t, v)).1 + db)
          commitLog := (applyEdit san db s t v).commitLog } := by
  intro rest
  induction rest with
  | nil =>
    intro s t v _
    rfl
  | cons tv tl ih =>
    intro s t v hch
    obtain ⟨t2, v2⟩ := tv
    have hlt : t2 < t + db := (List.chain'_cons.mp hch).1
    have hch2 : List.Chain' (fun a b => b.1 < a.1 + db) ((t2, v2) :: tl) :=
      (List.chain'_cons.mp hch).2
    have hnofire := applyEdit_no_fire san db (applyEdit san db s t v) t2 (t + db) v2 rfl hlt
    rw [List.foldl_cons]
    rw [ih (applyEdit san db s t v) t2 v2 hch2]
    rw [List.getLastD_cons]
    rw [hnofire.1, hnofire.2]

/-- Claim C5: for every burst of `setFilters` calls whose gaps all fall
within the `debounceTime` quiet window, starting from an idle slot, exactly
one committed-state update is published and its value is the sanitized value
of the last call; the live state reflects every call synchronously, and each
edit replaces the pending timer with its own rather than queuing a second
one. -/
theorem debounce_single_commit (α : Type) (san : α → α) (db : Nat)
    (s0 : DebounceState α) (t : Nat) (v : α) (rest : List (Nat × α))
    (h0 : s0.timerFire = none)
    (hch : List.Chain' (fun a b => b.1 < a.1 + db) ((t, v) :: rest)) :
    (runEdits san db s0 ((t, v) :: rest)).commitLog
        = s0.commitLog ++ [san (rest.getLastD (t, v)).2] ∧
    (runEdits san db s0 ((t, v) :: rest)).committed = san (rest.getLastD (t, v)).2 ∧
    (runEdits san db s0 ((t, v) :: rest)).live = (rest.getLastD (t, v)).2 ∧
    (∀ (s : DebounceState α) (t2 : Nat) (v2 : α),
      (applyEdit san db s t2 v2).live = v2 ∧
      (applyEdit san db s t2 v2).timerFire = some (t2 + db)) := by
  have hidle := applyEdit_from_idle san db s0 t v h0
  have hfold := debounce_fold san db rest s0 t v hch
  have hrun : runEdits san db s0 ((t, v) :: rest) =
      flushTimer san
        { live := (rest.getLastD (t, v)).2
          committed := (applyEdit san db s0 t v).committed
          timerFire := some ((rest.getLastD (t, v)).1 + db)
          commitLog := (applyEdit san db s0 t v).commitLog } := by
    rw [runEdits, List.foldl_cons, hfold]
  refine ⟨?_, ?_, ?_, fun s t2 v2 => ⟨rfl, rfl⟩⟩
  · rw [hrun]
    simp [flushTimer, fireTimer, hidle.2]
  · rw [hrun]
    simp [flushTimer, fireTimer]
  · rw [hrun]
    simp [flushTimer, fireTimer]

/-- Witness for claim C5's theorem: three `setFilters` calls at times 0, 50
and 100 ms with a 500 ms debounce, starting from an idle controller, publish
exactly one committed update — the sanitized value of the last call. -/
theorem debounce_single_commit_witness :
    (({ live := [], committed := [], timerFire := none, commitLog := [] } :
        DebounceState (List FilterCriterion)).timerFire = none) ∧
    (runEdits (fun l => sanitizeFilters l [createdAtField]) 500
        { live := [], committed := [], timerFire := none, commitLog := [] }
        [(0, [{ field := "created_at", operator := .BEFORE, value := .str "2024-03-01" }]),
         (50, [{ field := "created_at", operator := .AFTER, value := .str "2024-01-01" }]),
         (100, [{ field := "created_at", operator := .AFTER, value := .str "2024-02-01" }])]).commitLog
      = [] ++ [sanitizeFilters
          [{ field := "created_at", operator := .AFTER, value := .str "2024-02-01" }]
          [createdAtField]] := by
  refine ⟨rfl, ?_⟩
  exact (debounce_single_commit (List FilterCriterion)
    (fun l => sanitizeFilters l [createdAtField]) 500
    { live := [], committed := [], timerFire := none, commitLog := [] }
    0 [{ field := "created_at", operator := .BEFORE, value := .str "2024-03-01" }]
    [(50, [{ field := "created_at", operator := .AFTER, value := .str "2024-01-01" }]),
     (100, [{ field := "created_at", operator := .AFTER, value := .str "2024-02-01" }])]
    rfl (by
      refine List.chain'_cons.mpr ⟨by omega, ?_⟩
      refine List.chain'_cons.mpr ⟨by omega, ?_⟩
      exact List.chain'_singleton _)).1

/-- The stale-page safety relation between consecutively issued fetches: a
fetch whose criteria differ from its predecessor's must be at offset 0. -/
def fetchChainRel (p q : FetchParams) : Prop :=
  (p.filters ≠ q.filters ∨ p.sort ≠ q.sort) → q.offset = 0

/-- Every orchestrator trace satisfies the stale-page safety chain, and its
first fetch either carries the starting committed criteria or sits at
offset 0. -/
theorem orchTrace_chain_aux (fields : List FilterField) :
    ∀ (es : List OrchEvent) (s : OrchState),
      List.Chain' fetchChainRel (fetchesOf (orchTrace fields s es)) ∧
      (∀ p, (fetchesOf (orchTrace fields s es)).head? = some p →
        (p.filters = s.committedFilters ∧ p.sort = s.committedSorts) ∨ p.offset = 0) := by
  intro es
  induction es with
  | nil =>
    intro s
    exact ⟨List.chain'_nil, by simp [orchTrace, fetchesOf]⟩
  | cons e es ih =>
    intro s
    cases e with
    | criteriaEdit f so =>
      by_cases hc : sanitizeFilters f fields = s.committedFilters ∧ sanitizeSorts so = s.committedSorts
      · have hstep : stepOrch fields s (.criteriaEdit f so) = (s, []) := by
          simp [stepOrch, hc]
        rw [orchTrace, hstep]
        simpa using ih s
      · have hstep : stepOrch fields s (.criteriaEdit f so) =
            ({ committedFilters := sanitizeFilters f fields
               committedSorts := sanitizeSorts so
               pag := resetPagination s.pag },
             [.resetAction,
              .fetchAction (mainFetchParams
                { committedFilters := sanitizeFilters f fields
                  committedSorts := sanitizeSorts so
                  pag := resetPagination s.pag })]) := by
          simp [stepOrch, hc]
        rw [orchTrace, hstep]
        set s1 : OrchState :=
          { committedFilters := sanitizeFilters f fields
            committedSorts := sanitizeSorts so
            pag := resetPagination s.pag } with hs1
        have hoff : (mainFetchParams s1).offset = 0 := by
          simp [mainFetchParams, hs1, offsetOf, resetPagination, applyPagOp]
        have hfe : fetchesOf ([.resetAction, .fetchAction (mainFetchParams s1)] ++
            orchTrace fields s1 es) =
            mainFetchParams s1 :: fetchesOf (orchTrace fields s1 es) := by
          simp [fetchesOf]
        rw [hfe]
        constructor
        · refine List.chain'_cons'.mpr ⟨?_, (ih s1).1⟩
          intro q hq
          rcases (ih s1).2 q hq with hcrit | hzero
          · intro hne
            rcases hne with hne | hne
            · exact absurd (by simp [mainFetchParams, hcrit.1]) hne
            · exact absurd (by simp [mainFetchParams, hcrit.2]) hne
          · intro _
            exact hzero
        · intro p hp
          simp only [List.head?_cons, Option.some.injEq] at hp
          right
          rw [← hp]
          exact hoff
    | pageChange n =>
      have hstep : stepOrch fields s (.pageChange n) =
          ({ s with pag := applyPagOp s.pag (.setPage n) },
           [.fetchAction (mainFetchParams { s with pag := applyPagOp s.pag (.setPage n) })]) := rfl
      rw [orchTrace, hstep]
      set s1 : OrchState := { s with pag := applyPagOp s.pag (.setPage n) } with hs1
      have hfe : fetchesOf ([.fetchAction (mainFetchParams s1)] ++ orchTrace fields s1 es) =
          mainFetchParams s1 :: fetchesOf (orchTrace fields s1 es) := by
        simp [fetchesOf]
      rw [hfe]
      constructor
      · refine List.chain'_cons'.mpr ⟨?_, (ih s1).1⟩
        intro q hq
        rcases (ih s1).2 q hq with hcrit | hzero
        · intro hne
          rcases hne with hne | hne
          · exact absurd (by simp [mainFetchParams, hcrit.1, hs1]) hne
          · exact absurd (by simp [mainFetchParams, hcrit.2, hs1]) hne
        · intro _
          exact hzero
      · intro p hp
        simp only [List.head?_cons, Option.some.injEq] at hp
        left
        rw [← hp]
        exact ⟨by simp [mainFetchParams, hs1], by simp [mainFetchParams, hs1]⟩
    | limitChange n =>
      have hstep : stepOrch fields s (.limitChange n) =
          ({ s with pag := applyPagOp s.pag (.setLimit n) },
           [.fetchAction (mainFetchParams { s with pag := applyPagOp s.pag (.setLimit n) })]) := rfl
      rw [orchTrace, hstep]
      set s1 : OrchState := { s with pag := applyPagOp s.pag (.setLimit n) } with hs1
      have hfe : fetchesOf ([.fetchAction (mainFetchParams s1)] ++ orchTrace fields s1 es) =
          mainFetchParams s1 :: fetchesOf (orchTrace fields s1 es) := by
        simp [fetchesOf]
      rw [hfe]
      constructor
      · refine List.chain'_cons'.mpr ⟨?_, (ih s1).1⟩
        intro q hq
        rcases (ih s1).2 q hq with hcrit | hzero
        · intro hne
          rcases hne with hne | hne
          · exact absurd (by simp [mainFetchParams, hcrit.1, hs1]) hne
          · exact absurd (by simp [mainFetchParams, hcrit.2, hs1]) hne
        · intro _
          exact hzero
      · intro p hp
        simp only [List.head?_cons, Option.some.injEq] at hp
        left
        rw [← hp]
        exact ⟨by simp [mainFetchParams, hs1], by simp [mainFetchParams, hs1]⟩

/-- Claim C4: whenever the committed (sanitized) criteria change value, the
orchestrator emits exactly one pagination reset, placed before the main fetch
it then issues, and that fetch carries the new criteria at offset 0; an edit
whose sanitized value is unchanged emits nothing; and along any event
sequence, a fetch whose criteria differ from the previous fetch's is always
at offset 0, so a stale page number never combines with new criteria. -/
theorem criteria_change_reset_before_fetch :
    (∀ (fields : List FilterField) (s : OrchState) (f : List FilterCriterion)
        (so : List SortCriterion),
      ¬ (sanitizeFilters f fields = s.committedFilters ∧
          sanitizeSorts so = s.committedSorts) →
      (stepOrch fields s (.criteriaEdit f so)).2 =
        [.resetAction,
         .fetchAction
           { limit := s.pag.limit, offset := 0,
             filters := sanitizeFilters f fields, sort := sanitizeSorts so }] ∧
      resetCount (stepOrch fields s (.criteriaEdit f so)).2 = 1)
    ∧ (∀ (fields : List FilterField) (s : OrchState) (f : List FilterCriterion)
        (so : List SortCriterion),
        sanitizeFilters f fields = s.committedFilters →
        sanitizeSorts so = s.committedSorts →
        (stepOrch fields s (.criteriaEdit f so)).2 = [])
    ∧ (∀ (fields : List FilterField) (s : OrchState) (es : List OrchEvent),
        List.Chain' fetchChainRel (fetchesOf (orchTrace fields s es))) := by
  refine ⟨?_, ?_, ?_⟩
  · intro fields s f so hc
    constructor
    · simp [stepOrch, hc, mainFetchParams, offsetOf, resetPagination, applyPagOp]
    · simp [stepOrch, hc, resetCount]
  · intro fields s f so h1 h2
    simp [stepOrch, h1, h2]
  · intro fields s es
    exact (orchTrace_chain_aux fields es s).1

/-- Witness for claim C4's theorem: a concrete criteria edit whose sanitized
value differs from the committed state emits exactly one reset followed by a
single offset-0 fetch. -/
theorem criteria_change_reset_before_fetch_witness :
    (¬ (sanitizeFilters
          [{ field := "created_at", operator := .AFTER, value := .str "2024-01-01" }]
          [createdAtField] =
        ({ committedFilters := [], committedSorts := [],
           pag := { page := 3, limit := 10 } } : OrchState).committedFilters ∧
        sanitizeSorts [] =
        ({ committedFilters := [], committedSorts := [],
           pag := { page := 3, limit := 10 } } : OrchState).committedSorts)) ∧
    ((stepOrch [createdAtField]
        { committedFilters := [], committedSorts := [], pag := { page := 3, limit := 10 } }
        (.criteriaEdit
          [{ field := "created_at", operator := .AFTER, value := .str "2024-01-01" }] [])).2 =
      [.resetAction,
       .fetchAction
         { limit := 10, offset := 0,
           filters := sanitizeFilters
             [{ field := "created_at", operator := .AFTER, value := .str "2024-01-01" }]
             [createdAtField],
           sort := sanitizeSorts [] }] ∧
     resetCount (stepOrch [createdAtField]
        { committedFilters := [], committedSorts := [], pag := { page := 3, limit := 10 } }
        (.criteriaEdit
          [{ field := "created_at", operator := .AFTER, value := .str "2024-01-01" }] [])).2 = 1) := by
  refine ⟨by decide, ?_⟩
  exact criteria_change_reset_before_fetch.1 [createdAtField]
    { committedFilters := [], committedSorts := [], pag := { page := 3, limit := 10 } }
    [{ field := "created_at", operator := .AFTER, value := .str "2024-01-01" }] []
    (by decide)

/-- Every fetch issued along a valid orchestrator run originates from a
reachable state whose page is still 1-indexed. -/
theorem orchTrace_fetch_states (fields : List FilterField) :
    ∀ (es : List OrchEvent) (s : OrchState),
      1 ≤ s.pag.page → (∀ e ∈ es, validEvent e) →
      ∀ p ∈ fetchesOf (orchTrace fields s es),
        ∃ st : OrchState, 1 ≤ st.pag.page ∧ p = mainFetchParams st := by
  intro es
  induction es with
  | nil =>
    intro s _ _ p hp
    simp [orchTrace, fetchesOf] at hp
  | cons e es ih =>
    intro s hpg hval p hp
    have hves : ∀ e2 ∈ es, validEvent e2 := fun e2 h2 => hval e2 (List.mem_cons_of_mem e h2)
    cases e with
    | criteriaEdit f so =>
      by_cases hc : sanitizeFilters f fields = s.committedFilters ∧
          sanitizeSorts so = s.committedSorts
      · have hstep : stepOrch fields s (.criteriaEdit f so) = (s, []) := by
          simp [stepOrch, hc]
        rw [orchTrace, hstep] at hp
        simp only [List.nil_append] at hp
        exact ih s hpg hves p hp
      · have hstep : stepOrch fields s (.criteriaEdit f so) =
            ({ committedFilters := sanitizeFilters f fields
               committedSorts := sanitizeSorts so
               pag := resetPagination s.pag },
             [.resetAction,
              .fetchAction (mainFetchParams
                { committedFilters := sanitizeFilters f fields
                  committedSorts := sanitizeSorts so
                  pag := resetPagination s.pag })]) := by
          simp [stepOrch, hc]
        rw [orchTrace, hstep] at hp
        set s1 : OrchState :=
          { committedFilters := sanitizeFilters f fields
            committedSorts := sanitizeSorts so
            pag := resetPagination s.pag } with hs1
        have hpg1 : 1 ≤ s1.pag.page := by
          simp [hs1, resetPagination, applyPagOp]
        rw [show fetchesOf ([.resetAction, .fetchAction (mainFetchParams s1)] ++
            orchTrace fields s1 es) =
            mainFetchParams s1 :: fetchesOf (orchTrace fields s1 es) from by
          simp [fetchesOf]] at hp
        rcases List.mem_cons.mp hp with hp | hp
        · exact ⟨s1, hpg1, hp⟩
        · exact ih s1 hpg1 hves p hp
    | pageChange n =>
      have hn : 1 ≤ n := hval (.pageChange n) (List.mem_cons_self _ _)
      set s1 : OrchState := { s with pag := applyPagOp s.pag (.setPage n) } with hs1
      have hstep : stepOrch fields s (.pageChange n) =
          (s1, [.fetchAction (mainFetchParams s1)]) := rfl
      rw [orchTrace, hstep] at hp
      have hpg1 : 1 ≤ s1.pag.page := by
        simpa [hs1, applyPagOp] using hn
      rw [show fetchesOf ([.fetchAction (mainFetchParams s1)] ++ orchTrace fields s1 es) =
          mainFetchParams s1 :: fetchesOf (orchTrace fields s1 es) from by
        simp [fetchesOf]] at hp
      rcases List.mem_cons.mp hp with hp | hp
      · exact ⟨s1, hpg1, hp⟩
      · exact ih s1 hpg1 hves p hp
    | limitChange n =>
      set s1 : OrchState := { s with pag := applyPagOp s.pag (.setLimit n) } with hs1
      have hstep : stepOrch fields s (.limitChange n) =
          (s1, [.fetchAction (mainFetchParams s1)]) := rfl
      rw [orchTrace, hstep] at hp
      have hpg1 : 1 ≤ s1.pag.page := by
        simpa [hs1, applyPagOp] using hpg
      rw [show fetchesOf ([.fetchAction (mainFetchParams s1)] ++ orchTrace fields s1 es) =
          mainFetchParams s1 :: fetchesOf (orchTrace fields s1 es) from by
        simp [fetchesOf]] at hp
      rcases List.mem_cons.mp hp with hp | hp
      · exact ⟨s1, hpg1, hp⟩
      · exact ih s1 hpg1 hves p hp

/-- Claim C7: the exposed pagination offset is `(page-1)×limit`, and every
fetch issued along a valid orchestrator run uses the offset of a reachable
state with a 1-indexed page, so its offset equals `(page-1)×limit` for that
page and limit. -/
theorem pagination_offset_invariant :
    (∀ s : PaginationState, offsetOf s = (s.page - 1) * s.limit)
    ∧ (∀ (fields : List FilterField) (es : List OrchEvent) (s : OrchState),
        1 ≤ s.pag.page → (∀ e ∈ es, validEvent e) →
        ∀ p ∈ fetchesOf (orchTrace fields s es),
          ∃ st : OrchState, 1 ≤ st.pag.page ∧ p = mainFetchParams st ∧
            p.offset = (st.pag.page - 1) * st.pag.limit) := by
  constructor
  · intro s
    rfl
  · intro fields es s hpg hval p hp
    obtain ⟨st, hst, hpeq⟩ := orchTrace_fetch_states fields es s hpg hval p hp
    exact ⟨st, hst, hpeq, by rw [hpeq]; rfl⟩

/-- Witness for claim C7's theorem: a page change to page 2 at limit 10
issues a fetch at offset 10 = (2-1)×10, from the reachable page-2 state. -/
theorem pagination_offset_invariant_witness :
    (1 ≤ ({ committedFilters := [], committedSorts := [],
            pag := { page := 1, limit := 10 } } : OrchState).pag.page) ∧
    (∀ e ∈ [OrchEvent.pageChange 2], validEvent e) ∧
    ((mainFetchParams { committedFilters := [], committedSorts := [],
                        pag := { page := 2, limit := 10 } }) ∈
      fetchesOf (orchTrace []
        { committedFilters := [], committedSorts := [], pag := { page := 1, limit := 10 } }
        [OrchEvent.pageChange 2])) ∧
    (∃ st : OrchState, 1 ≤ st.pag.page ∧
      mainFetchParams { committedFilters := [], committedSorts := [],
                        pag := { page := 2, limit := 10 } } = mainFetchParams st ∧
      (mainFetchParams { committedFilters := [], committedSorts := [],
                         pag := { page := 2, limit := 10 } }).offset
        = (st.pag.page - 1) * st.pag.limit) := by
  refine ⟨by decide, by decide, by decide, ?_⟩
  exact pagination_offset_invariant.2 []
    [OrchEvent.pageChange 2]
    { committedFilters := [], committedSorts := [], pag := { page := 1, limit := 10 } }
    (by decide) (by decide)
    (mainFetchParams { committedFilters := [], committedSorts := [],
                       pag := { page := 2, limit := 10 } })
    (by decide)

end ListQuery
